/-
  Verification development for the aibox (Airborne) multi-tenant AI gateway.

  Shallow embedding of the Go sources:
    - internal/validation/limits.go   (request size limits)
    - internal/errors/sanitize.go     (error sanitizer)
    - internal/tenant/secrets.go      (secret reference loader)
    - internal/tenant (env config loader, provider selection)
    - internal/auth/ratelimit.go      (token rate limiter and its Lua script)
    - internal/service/files.go       (FileService handlers)

  Go strings are modelled as Lean `String`; Go `len` (UTF-8 byte count),
  `strings.ToLower`, `strings.Contains`, `strings.HasPrefix`,
  `strings.TrimSpace` and `path/filepath` cleaning are given explicit
  executable definitions over character lists below.
-/
import Mathlib

set_option maxRecDepth 4000

namespace GoStr

/-- Go `len(s)` for a string: the number of UTF-8 bytes. -/
def goLen (s : String) : Nat := (s.data.map Char.utf8Size).sum

/-- ASCII lower-casing of a character, as Go `strings.ToLower` acts on ASCII. -/
def charLower (c : Char) : Char :=
  if 'A' ≤ c ∧ c ≤ 'Z' then Char.ofNat (c.toNat + 32) else c

/-- Go `strings.ToLower` (restricted to its ASCII action, which covers every
pattern the sanitizer matches on). -/
def goToLower (s : String) : String := String.mk (s.data.map charLower)

/-- Go `strings.Contains(s, pat)`: `pat` occurs as a contiguous substring. -/
def goContains (s pat : String) : Bool :=
  s.data.tails.any (fun t => pat.data.isPrefixOf t)

/-- Go `strings.HasPrefix(s, p)`. -/
def goHasPfx (s p : String) : Bool := p.data.isPrefixOf s.data

/-- Go `strings.HasSuffix(s, p)`. -/
def goHasSfx (s p : String) : Bool := p.data.isSuffixOf s.data

/-- Drop the first `n` bytes of an ASCII string (Go slicing `s[n:]`,
`strings.TrimPrefix` after a successful prefix test). -/
def goDrop (s : String) (n : Nat) : String := String.mk (s.data.drop n)

/-- Go `strings.TrimSpace`. -/
def goTrim (s : String) : String :=
  String.mk (((s.data.dropWhile Char.isWhitespace).reverse.dropWhile Char.isWhitespace).reverse)

/-- Element of `xs` is also an element of `xs.intersperse sep`. -/
theorem mem_intersperse_self {α : Type} (sep : α) :
    ∀ (xs : List α), ∀ x ∈ xs, x ∈ xs.intersperse sep := by
  intro xs
  induction xs with
  | nil => intro x hx; cases hx
  | cons a t ih =>
    intro x hx
    cases t with
    | nil => simpa using hx
    | cons b t2 =>
      rw [List.intersperse_cons_cons]
      rcases List.mem_cons.1 hx with h1 | h2
      · simp [h1]
      · simp only [List.mem_cons]
        right; right
        exact ih x h2

/-- A segment produced by splitting on `/` occurs contiguously in the path. -/
theorem seg_infix_of_mem_splitOn (p seg : List Char) (h : seg ∈ p.splitOn '/') :
    seg <:+: p := by
  have hrec := @List.intercalate_splitOn Char p '/' _
  have h2 : seg ∈ (p.splitOn '/').intersperse ['/'] :=
    mem_intersperse_self _ _ _ h
  have h3 : seg <:+: ((p.splitOn '/').intersperse ['/']).flatten :=
    List.infix_of_mem_flatten h2
  rw [List.intercalate] at hrec
  rwa [hrec] at h3

/-- `goContains` holds whenever the pattern's characters occur contiguously. -/
theorem goContains_of_infix (s pat : String) (h : pat.data <:+: s.data) :
    goContains s pat = true := by
  rcases List.infix_iff_prefix_suffix.1 h with ⟨t, hp, hs⟩
  unfold goContains
  rw [List.any_eq_true]
  exact ⟨t, (List.mem_tails _ _).2 hs, by rwa [List.isPrefixOf_iff_prefix]⟩

/-- Byte length of the `n`-fold repetition of an ASCII character `a`. -/
theorem goLen_replicate (n : Nat) : goLen (String.mk (List.replicate n 'a')) = n := by
  show (List.map Char.utf8Size (List.replicate n 'a')).sum = n
  rw [List.map_replicate, List.sum_replicate, smul_eq_mul]
  have h : Char.utf8Size 'a' = 1 := by decide
  rw [h, mul_one]

end GoStr

namespace validation

/-- `MaxUserInputBytes` from internal/validation/limits.go: 100 KB. -/
def MaxUserInputBytes : Nat := 100 * 1024

/-- `MaxInstructionsBytes` from internal/validation/limits.go: 50 KB. -/
def MaxInstructionsBytes : Nat := 50 * 1024

/-- `MaxHistoryCount` from internal/validation/limits.go. -/
def MaxHistoryCount : Int := 100

/-- `MaxMetadataEntries` from internal/validation/limits.go. -/
def MaxMetadataEntries : Nat := 50

/-- The sentinel errors `ErrUserInputTooLarge`, `ErrInstructionsTooLarge`,
`ErrHistoryTooLong`, `ErrMetadataTooLarge` from internal/validation/limits.go. -/
inductive LimitError where
  | userInputTooLarge
  | instructionsTooLarge
  | historyTooLong
  | metadataTooLarge
deriving DecidableEq

/-- `ValidateGenerateRequest` from internal/validation/limits.go.
`none` models a nil Go error; `some e` models returning the wrapped sentinel. -/
def ValidateGenerateRequest (userInput instructions : String) (historyCount : Int) :
    Option LimitError :=
  if GoStr.goLen userInput > MaxUserInputBytes then some .userInputTooLarge
  else if GoStr.goLen instructions > MaxInstructionsBytes then some .instructionsTooLarge
  else if historyCount > MaxHistoryCount then some .historyTooLong
  else none

/-- `ValidateMetadata` from internal/validation/limits.go; the Go map is
modelled as its entry list, of which only the length is consulted. -/
def ValidateMetadata (metadata : List (String × String)) : Option LimitError :=
  if metadata.length > MaxMetadataEntries then some .metadataTooLarge else none

end validation

/-- Claim C6: `ValidateGenerateRequest` accepts a `user_input` of exactly 100 KB
(102400 bytes) and rejects 100 KB + 1; accepts a history of exactly 100
messages and rejects 101; accepts instructions of exactly 50 KB and rejects
larger; `ValidateMetadata` accepts exactly 50 entries and rejects 51; each
rejection yields the corresponding invalid-argument sentinel error. -/
theorem c6_validation_boundaries
    (u i : String) (hc : Int) (md : List (String × String)) :
    (GoStr.goLen u ≤ 102400 → GoStr.goLen i ≤ 51200 → hc ≤ 100 →
      validation.ValidateGenerateRequest u i hc = none) ∧
    (GoStr.goLen u > 102400 →
      validation.ValidateGenerateRequest u i hc = some .userInputTooLarge) ∧
    (GoStr.goLen u ≤ 102400 → GoStr.goLen i > 51200 →
      validation.ValidateGenerateRequest u i hc = some .instructionsTooLarge) ∧
    (GoStr.goLen u ≤ 102400 → GoStr.goLen i ≤ 51200 → hc > 100 →
      validation.ValidateGenerateRequest u i hc = some .historyTooLong) ∧
    (md.length ≤ 50 → validation.ValidateMetadata md = none) ∧
    (md.length > 50 → validation.ValidateMetadata md = some .metadataTooLarge) := by
  unfold validation.ValidateGenerateRequest validation.ValidateMetadata
  unfold validation.MaxUserInputBytes validation.MaxInstructionsBytes
  unfold validation.MaxHistoryCount validation.MaxMetadataEntries
  refine ⟨?_, ?_, ?_, ?_, ?_, ?_⟩ <;> intros <;> split_ifs <;> first | rfl | omega

/-- Witness for claim C6 at the exact boundary inputs: a 102400-byte input is
accepted and a 102401-byte one rejected; instructions at 51200 accepted and
51201 rejected; history 100 accepted and 101 rejected; 50 metadata entries
accepted and 51 rejected. -/
theorem c6_validation_boundaries_witness :
    validation.ValidateGenerateRequest (String.mk (List.replicate 102400 'a')) "" 100 = none ∧
    validation.ValidateGenerateRequest (String.mk (List.replicate 102401 'a')) "" 0 =
      some .userInputTooLarge ∧
    validation.ValidateGenerateRequest "" (String.mk (List.replicate 51200 'a')) 100 = none ∧
    validation.ValidateGenerateRequest "" (String.mk (List.replicate 51201 'a')) 0 =
      some .instructionsTooLarge ∧
    validation.ValidateGenerateRequest "hi" "" 101 = some .historyTooLong ∧
    validation.ValidateMetadata ((List.range 50).map fun n => (toString n, "v")) = none ∧
    validation.ValidateMetadata ((List.range 51).map fun n => (toString n, "v")) =
      some .metadataTooLarge := by
  have len50 : ((List.range 50).map fun n => (toString n, "v")).length = 50 := by
    rw [List.length_map, List.length_range]
  have len51 : ((List.range 51).map fun n => (toString n, "v")).length = 51 := by
    rw [List.length_map, List.length_range]
  refine ⟨?_, ?_, ?_, ?_, ?_, ?_, ?_⟩
  · exact (c6_validation_boundaries _ _ _ []).1
      (by rw [GoStr.goLen_replicate]) (by decide) (by decide)
  · exact (c6_validation_boundaries _ _ _ []).2.1 (by rw [GoStr.goLen_replicate]; decide)
  · exact (c6_validation_boundaries _ _ _ []).1
      (by decide) (by rw [GoStr.goLen_replicate]) (by decide)
  · exact (c6_validation_boundaries _ _ _ []).2.2.1
      (by decide) (by rw [GoStr.goLen_replicate]; decide)
  · exact (c6_validation_boundaries _ _ _ []).2.2.2.1
      (by decide) (by decide) (by decide)
  · exact (c6_validation_boundaries "" "" 0 _).2.2.2.2.1 (by rw [len50])
  · exact (c6_validation_boundaries "" "" 0 _).2.2.2.2.2 (by rw [len51]; decide)

namespace errs

/-- `clientSafePatterns` from internal/errors/sanitize.go, as its entry list in
source order.  The Go value is a map whose iteration order is unspecified;
theorems therefore quantify over permutations of this list. -/
def clientSafePatterns : List (String × String) :=
  [("rate limit", "rate limit exceeded"),
   ("quota", "quota exceeded"),
   ("timeout", "request timed out"),
   ("context dead", "request cancelled"),
   ("invalid api", "authentication failed with provider"),
   ("unauthorized", "authentication failed with provider"),
   ("forbidden", "access denied by provider"),
   ("not found", "resource not found")]

/-- `SanitizeForClient` from internal/errors/sanitize.go.  A Go `error` is
modelled as `Option String` (`none` = nil, `some msg` = `err.Error() = msg`);
`order` is the map iteration order used by the `for pattern, safeMsg := range`
loop. -/
def SanitizeForClient (order : List (String × String)) (err : Option String) : String :=
  match err with
  | none => ""
  | some msg =>
    match order.find? (fun pr => GoStr.goContains (GoStr.goToLower msg) pr.1) with
    | some pr => pr.2
    | none => "provider temporarily unavailable"

end errs

/-- Claim C8: `SanitizeForClient` returns `""` for a nil error; for a message
matching no known pattern it returns exactly "provider temporarily
unavailable"; for a message matching a known pattern it returns that (for a
unique match, exactly that) pattern's fixed public string, whatever iteration
order the Go map produces; and the result is always drawn from the fixed set
of constant strings, so no part of the original message is ever emitted. -/
theorem c8_sanitize_fixed_set (order : List (String × String))
    (hperm : order.Perm errs.clientSafePatterns) :
    errs.SanitizeForClient order none = "" ∧
    (∀ msg,
      ((∀ pr ∈ errs.clientSafePatterns,
          GoStr.goContains (GoStr.goToLower msg) pr.1 = false) →
        errs.SanitizeForClient order (some msg) = "provider temporarily unavailable") ∧
      (∀ pr ∈ errs.clientSafePatterns,
        GoStr.goContains (GoStr.goToLower msg) pr.1 = true →
        ∃ q ∈ errs.clientSafePatterns,
          GoStr.goContains (GoStr.goToLower msg) q.1 = true ∧
          errs.SanitizeForClient order (some msg) = q.2) ∧
      (∀ pr ∈ errs.clientSafePatterns,
        GoStr.goContains (GoStr.goToLower msg) pr.1 = true →
        (∀ q ∈ errs.clientSafePatterns, q ≠ pr →
          GoStr.goContains (GoStr.goToLower msg) q.1 = false) →
        errs.SanitizeForClient order (some msg) = pr.2) ∧
      errs.SanitizeForClient order (some msg) ∈
        "" :: "provider temporarily unavailable" ::
          errs.clientSafePatterns.map Prod.snd) := by
  constructor
  · rfl
  intro msg
  have hmem : ∀ pr, pr ∈ order ↔ pr ∈ errs.clientSafePatterns := fun pr => hperm.mem_iff
  refine ⟨?_, ?_, ?_, ?_⟩
  · intro hall
    have hnone : order.find? (fun pr => GoStr.goContains (GoStr.goToLower msg) pr.1) = none := by
      rw [List.find?_eq_none]
      intro pr hpr
      simp only [Bool.not_eq_true]
      exact hall pr ((hmem pr).1 hpr)
    simp only [errs.SanitizeForClient, hnone]
  · intro pr hpr hc
    have hsome : (order.find? (fun pr => GoStr.goContains (GoStr.goToLower msg) pr.1)).isSome := by
      rw [List.find?_isSome]
      exact ⟨pr, (hmem pr).2 hpr, hc⟩
    rcases Option.isSome_iff_exists.1 hsome with ⟨q, hq⟩
    have hq2 : GoStr.goContains (GoStr.goToLower msg) q.1 = true := by
      have h3 := List.find?_some hq
      simpa using h3
    refine ⟨q, (hmem q).1 (List.mem_of_find?_eq_some hq), hq2, ?_⟩
    simp only [errs.SanitizeForClient, hq]
  · intro pr hpr hc huniq
    cases hfind : order.find? (fun pr => GoStr.goContains (GoStr.goToLower msg) pr.1) with
    | none =>
      rw [List.find?_eq_none] at hfind
      exact absurd hc (by simpa using hfind pr ((hmem pr).2 hpr))
    | some q =>
      have hq1 : q ∈ errs.clientSafePatterns := (hmem q).1 (List.mem_of_find?_eq_some hfind)
      have hq2 : GoStr.goContains (GoStr.goToLower msg) q.1 = true := by
        have h3 := List.find?_some hfind
        simpa using h3
      have : q = pr := by
        by_contra hne
        exact absurd hq2 (by simp [huniq q hq1 hne])
      subst this
      simp only [errs.SanitizeForClient, hfind]
  · cases hfind : order.find? (fun pr => GoStr.goContains (GoStr.goToLower msg) pr.1) with
    | none =>
      simp only [errs.SanitizeForClient, hfind]
      simp
    | some q =>
      have hq1 : q ∈ errs.clientSafePatterns := (hmem q).1 (List.mem_of_find?_eq_some hfind)
      simp only [errs.SanitizeForClient, hfind]
      simp only [List.mem_cons]
      right; right
      exact List.mem_map.2 ⟨q, hq1, rfl⟩

/-- Witness for claim C8: with the source-order iteration, a nil error maps to
`""`; a transport error with an internal address maps to exactly "provider
temporarily unavailable"; an upstream message containing "Rate Limit", a URL
and a key fragment maps to exactly "rate limit exceeded". -/
theorem c8_sanitize_fixed_set_witness :
    errs.SanitizeForClient errs.clientSafePatterns none = "" ∧
    errs.SanitizeForClient errs.clientSafePatterns
      (some "dial tcp 10.0.0.8: connection reset by peer") =
      "provider temporarily unavailable" ∧
    errs.SanitizeForClient errs.clientSafePatterns
      (some "429 Rate Limit hit at https://api.upstream.example/v1 key sk-abc123") =
      "rate limit exceeded" := by
  have h := c8_sanitize_fixed_set errs.clientSafePatterns (List.Perm.refl _)
  refine ⟨h.1, ?_, ?_⟩
  · exact (h.2 _).1 (by decide)
  · exact (h.2 _).2.2.1 ("rate limit", "rate limit exceeded") (by decide) (by decide) (by decide)

namespace tenant

/-- `AllowedSecretDirs` from internal/tenant/secrets.go. -/
def AllowedSecretDirs : List String :=
  ["/etc/aibox/secrets", "/run/secrets", "/var/run/secrets"]

/-- One step of lexical path cleaning: Go `path/filepath.Clean` processes the
`/`-separated segments, dropping empty and `.` segments, resolving `..`
against the previous segment (or dropping it at the root). -/
def cleanStep (rooted : Bool) (out : List (List Char)) (seg : List Char) : List (List Char) :=
  if seg = [] ∨ seg = ['.'] then out
  else if seg = ['.', '.'] then
    if out ≠ [] ∧ out.getLast? ≠ some ['.', '.'] then out.dropLast
    else if rooted then out
    else out ++ [seg]
  else out ++ [seg]

/-- Go `path/filepath.Clean` on Unix paths. -/
def pathClean (p : String) : String :=
  if p = "" then "." else
  let rooted := GoStr.goHasPfx p "/"
  let segs := (p.data.splitOn '/').foldl (cleanStep rooted) []
  let body := (segs.intersperse ['/']).flatten
  if rooted then String.mk ('/' :: body)
  else if body = [] then "." else String.mk body

/-- Go `path/filepath.Abs`: an already-rooted path is cleaned, a relative path
is joined onto the working directory and cleaned. -/
def filepathAbs (cwd path : String) : String :=
  if GoStr.goHasPfx path "/" then pathClean path else pathClean (cwd ++ "/" ++ path)

/-- A path contains a literal `..` segment between separators. -/
def hasDotDotSeg (p : String) : Bool :=
  (p.data.splitOn '/').any (fun seg => seg = ['.', '.'])

/-- The allow-list test of `validateSecretPath`: the absolute path equals one
of `AllowedSecretDirs` or lies strictly below one of them. -/
def inAllowedDirs (absPath : String) : Bool :=
  AllowedSecretDirs.any (fun allowed =>
    GoStr.goHasPfx absPath (allowed ++ "/") || absPath = allowed)

/-- `validateSecretPath` from internal/tenant/secrets.go.  `cwd` stands for the
process working directory consulted by `filepath.Abs`. -/
def validateSecretPath (cwd path : String) : Except String Unit :=
  if GoStr.goContains path ".." then
    .error ("path traversal not allowed: " ++ path)
  else if inAllowedDirs (filepathAbs cwd path) then .ok ()
  else .error ("path " ++ filepathAbs cwd path ++ " not in allowed directories")

/-- `loadSecret` from internal/tenant/secrets.go.  The process environment is
`env` (Go `os.Getenv`, `""` when unset), the readable file system is `fs`
(`os.ReadFile`, `none` when the read fails), `cwd` the working directory. -/
def loadSecret (env : String → String) (fs : String → Option String)
    (cwd value : String) : Except String String :=
  if value = "" then .ok ""
  else if GoStr.goHasPfx value "ENV=" then
    let envVar := GoStr.goDrop value 4
    if env envVar = "" then .error ("environment variable " ++ envVar ++ " not set")
    else .ok (env envVar)
  else if GoStr.goHasPfx value "FILE=" then
    let path := GoStr.goTrim (GoStr.goDrop value 5)
    match validateSecretPath cwd path with
    | .error e => .error ("secret path validation failed: " ++ e)
    | .ok _ =>
      match fs path with
      | none => .error ("reading " ++ path)
      | some content => .ok (GoStr.goTrim content)
  else if GoStr.goHasPfx value "$\x7b" && GoStr.goHasSfx value "\x7d" then
    let varName := String.mk ((value.data.drop 2).dropLast)
    if env varName = "" then .error ("environment variable " ++ varName ++ " not set")
    else .ok (env varName)
  else .ok value

/-- A path with a `..` segment fails the `strings.Contains(path, "..")` test. -/
theorem goContains_dotdot_of_seg (p : String) (h : hasDotDotSeg p = true) :
    GoStr.goContains p ".." = true := by
  unfold hasDotDotSeg at h
  rw [List.any_eq_true] at h
  rcases h with ⟨seg, hmem, heq⟩
  rw [decide_eq_true_eq] at heq
  subst heq
  exact GoStr.goContains_of_infix p ".." (GoStr.seg_infix_of_mem_splitOn _ _ hmem)

end tenant

namespace GoStr

/-- Structure eta for strings. -/
theorem strMk_data (s : String) : String.mk s.data = s := rfl

/-- A string starts with the piece it was built from. -/
theorem goHasPfx_append (p rest : String) : goHasPfx (p ++ rest) p = true := by
  unfold goHasPfx
  rw [String.data_append, List.isPrefixOf_iff_prefix]
  exact List.prefix_append _ _

/-- Appending to a nonempty string yields a nonempty string. -/
theorem append_ne_empty (p rest : String) (hp : p.data ≠ []) : (p ++ rest) ≠ "" := by
  intro h
  have h2 : (p ++ rest).data = [] := by rw [h]
  rw [String.data_append] at h2
  exact hp (List.append_eq_nil.1 h2).1

/-- Lists with distinct heads are not prefixes of one another. -/
theorem isPrefixOf_cons_false (c d : Char) (s p : List Char) (h : c ≠ d) :
    List.isPrefixOf (c :: p) (d :: s) = false := by
  simp [List.isPrefixOf, h]

end GoStr

namespace tenant

/-- Unfolding of `loadSecret` on an `ENV=`-prefixed value. -/
theorem loadSecret_env_eq (env : String → String) (fs : String → Option String)
    (cwd name : String) :
    loadSecret env fs cwd ("ENV=" ++ name) =
      if env name = "" then .error ("environment variable " ++ name ++ " not set")
      else .ok (env name) := by
  have hne : ("ENV=" ++ name) ≠ "" := GoStr.append_ne_empty _ _ (by decide)
  have hpfx : GoStr.goHasPfx ("ENV=" ++ name) "ENV=" = true := GoStr.goHasPfx_append _ _
  have hdrop : GoStr.goDrop ("ENV=" ++ name) 4 = name := by
    unfold GoStr.goDrop
    rw [String.data_append]
    have h : ("ENV=" : String).data = ['E', 'N', 'V', '='] := rfl
    rw [h]
    rfl
  unfold loadSecret
  rw [if_neg hne, if_pos hpfx, hdrop]

/-- Unfolding of `loadSecret` on a `FILE=`-prefixed value. -/
theorem loadSecret_file_eq (env : String → String) (fs : String → Option String)
    (cwd rest : String) :
    loadSecret env fs cwd ("FILE=" ++ rest) =
      (match validateSecretPath cwd (GoStr.goTrim rest) with
       | .error e => .error ("secret path validation failed: " ++ e)
       | .ok _ =>
         match fs (GoStr.goTrim rest) with
         | none => .error ("reading " ++ GoStr.goTrim rest)
         | some content => .ok (GoStr.goTrim content)) := by
  have hne : ("FILE=" ++ rest) ≠ "" := GoStr.append_ne_empty _ _ (by decide)
  have hd : ("FILE=" ++ rest).data = 'F' :: (['I', 'L', 'E', '='] ++ rest.data) := by
    rw [String.data_append]
    rfl
  have henv : GoStr.goHasPfx ("FILE=" ++ rest) "ENV=" = false := by
    show List.isPrefixOf ("ENV=" : String).data ("FILE=" ++ rest).data = false
    have h1 : ("ENV=" : String).data = 'E' :: ['N', 'V', '='] := rfl
    rw [h1, hd]
    exact GoStr.isPrefixOf_cons_false _ _ _ _ (by decide)
  have hpfx : GoStr.goHasPfx ("FILE=" ++ rest) "FILE=" = true := GoStr.goHasPfx_append _ _
  have hdrop : GoStr.goDrop ("FILE=" ++ rest) 5 = rest := by
    unfold GoStr.goDrop
    rw [String.data_append]
    have h : ("FILE=" : String).data = ['F', 'I', 'L', 'E', '='] := rfl
    rw [h]
    rfl
  unfold loadSecret
  rw [if_neg hne, if_neg (by rw [henv]; exact Bool.false_ne_true), if_pos hpfx, hdrop]

/-- Unfolding of `loadSecret` on a `${VAR}` value. -/
theorem loadSecret_var_eq (env : String → String) (fs : String → Option String)
    (cwd name : String) :
    loadSecret env fs cwd ("$\x7b" ++ name ++ "\x7d") =
      if env name = "" then .error ("environment variable " ++ name ++ " not set")
      else .ok (env name) := by
  have hne : ("$\x7b" ++ name ++ "\x7d") ≠ "" := by
    apply GoStr.append_ne_empty
    rw [String.data_append]
    simp
  have hd : ("$\x7b" ++ name ++ "\x7d").data =
      '$' :: (('\x7b' :: name.data) ++ ['\x7d']) := by
    rw [String.data_append, String.data_append]
    rfl
  have henv : GoStr.goHasPfx ("$\x7b" ++ name ++ "\x7d") "ENV=" = false := by
    show List.isPrefixOf ("ENV=" : String).data _ = false
    have h1 : ("ENV=" : String).data = 'E' :: ['N', 'V', '='] := rfl
    rw [h1, hd]
    exact GoStr.isPrefixOf_cons_false _ _ _ _ (by decide)
  have hfile : GoStr.goHasPfx ("$\x7b" ++ name ++ "\x7d") "FILE=" = false := by
    show List.isPrefixOf ("FILE=" : String).data _ = false
    have h1 : ("FILE=" : String).data = 'F' :: ['I', 'L', 'E', '='] := rfl
    rw [h1, hd]
    exact GoStr.isPrefixOf_cons_false _ _ _ _ (by decide)
  have hpfx : GoStr.goHasPfx ("$\x7b" ++ name ++ "\x7d") "$\x7b" = true := by
    rw [String.append_assoc]
    exact GoStr.goHasPfx_append _ _
  have hsfx : GoStr.goHasSfx ("$\x7b" ++ name ++ "\x7d") "\x7d" = true := by
    unfold GoStr.goHasSfx
    rw [List.isSuffixOf_iff_suffix, String.data_append]
    exact List.suffix_append _ _
  have hvar : String.mk ((("$\x7b" ++ name ++ "\x7d").data.drop 2).dropLast) = name := by
    rw [String.data_append, String.data_append]
    have h : ("$\x7b" : String).data = ['$', '\x7b'] := rfl
    have h2 : ("\x7d" : String).data = ['\x7d'] := rfl
    rw [h, h2, List.append_assoc]
    have h3 : ((['$', '\x7b'] ++ (name.data ++ ['\x7d'])).drop 2) = name.data ++ ['\x7d'] := rfl
    rw [h3, List.dropLast_concat]
  unfold loadSecret
  rw [if_neg hne, if_neg (by rw [henv]; exact Bool.false_ne_true),
    if_neg (by rw [hfile]; exact Bool.false_ne_true),
    if_pos (by rw [hpfx, hsfx]; rfl), hvar]

end tenant

/-- Claim C7: `loadSecret` returns the named environment variable for `ENV=`
values and errors when it is unset; reads the referenced file for `FILE=`
values only when the absolute path is inside the allow-listed directories and
has no `..` segment (the code rejects any `..` occurrence, which covers every
`..` segment), erroring otherwise; expands `$\x7bVAR\x7d` values from the
environment and errors when unset; and returns any other value literally. -/
theorem c7_loadSecret_behaviour (env : String → String) (fs : String → Option String)
    (cwd : String) :
    (tenant.loadSecret env fs cwd "" = .ok "") ∧
    (∀ name, env name ≠ "" →
      tenant.loadSecret env fs cwd ("ENV=" ++ name) = .ok (env name)) ∧
    (∀ name, env name = "" →
      tenant.loadSecret env fs cwd ("ENV=" ++ name) =
        .error ("environment variable " ++ name ++ " not set")) ∧
    (∀ rest,
      (tenant.hasDotDotSeg (GoStr.goTrim rest) = true →
        ∃ e, tenant.loadSecret env fs cwd ("FILE=" ++ rest) = .error e) ∧
      (GoStr.goContains (GoStr.goTrim rest) ".." = true →
        ∃ e, tenant.loadSecret env fs cwd ("FILE=" ++ rest) = .error e) ∧
      (tenant.inAllowedDirs (tenant.filepathAbs cwd (GoStr.goTrim rest)) = false →
        ∃ e, tenant.loadSecret env fs cwd ("FILE=" ++ rest) = .error e) ∧
      (∀ s, tenant.loadSecret env fs cwd ("FILE=" ++ rest) = .ok s →
        GoStr.goContains (GoStr.goTrim rest) ".." = false ∧
        tenant.hasDotDotSeg (GoStr.goTrim rest) = false ∧
        tenant.inAllowedDirs (tenant.filepathAbs cwd (GoStr.goTrim rest)) = true ∧
        ∃ content, fs (GoStr.goTrim rest) = some content ∧ s = GoStr.goTrim content) ∧
      (GoStr.goContains (GoStr.goTrim rest) ".." = false →
        tenant.inAllowedDirs (tenant.filepathAbs cwd (GoStr.goTrim rest)) = true →
        ∀ content, fs (GoStr.goTrim rest) = some content →
          tenant.loadSecret env fs cwd ("FILE=" ++ rest) = .ok (GoStr.goTrim content))) ∧
    (∀ name, env name ≠ "" →
      tenant.loadSecret env fs cwd ("$\x7b" ++ name ++ "\x7d") = .ok (env name)) ∧
    (∀ name, env name = "" →
      tenant.loadSecret env fs cwd ("$\x7b" ++ name ++ "\x7d") =
        .error ("environment variable " ++ name ++ " not set")) ∧
    (∀ value, value ≠ "" →
      GoStr.goHasPfx value "ENV=" = false →
      GoStr.goHasPfx value "FILE=" = false →
      ¬(GoStr.goHasPfx value "$\x7b" = true ∧ GoStr.goHasSfx value "\x7d" = true) →
      tenant.loadSecret env fs cwd value = .ok value) := by
  refine ⟨rfl, ?_, ?_, ?_, ?_, ?_, ?_⟩
  · intro name h
    rw [tenant.loadSecret_env_eq, if_neg h]
  · intro name h
    rw [tenant.loadSecret_env_eq, if_pos h]
  · intro rest
    have hfile := tenant.loadSecret_file_eq env fs cwd rest
    refine ⟨?_, ?_, ?_, ?_, ?_⟩
    · intro h
      have hc := tenant.goContains_dotdot_of_seg _ h
      rw [hfile]
      unfold tenant.validateSecretPath
      rw [if_pos hc]
      exact ⟨_, rfl⟩
    · intro hc
      rw [hfile]
      unfold tenant.validateSecretPath
      rw [if_pos hc]
      exact ⟨_, rfl⟩
    · intro hallow
      rw [hfile]
      unfold tenant.validateSecretPath
      by_cases hc : GoStr.goContains (GoStr.goTrim rest) ".." = true
      · rw [if_pos hc]
        exact ⟨_, rfl⟩
      · rw [if_neg hc, if_neg (by rw [hallow]; exact Bool.false_ne_true)]
        exact ⟨_, rfl⟩
    · intro s hs
      rw [hfile] at hs
      unfold tenant.validateSecretPath at hs
      by_cases hc : GoStr.goContains (GoStr.goTrim rest) ".." = true
      · rw [if_pos hc] at hs
        exact absurd hs (by simp)
      · rw [if_neg hc] at hs
        by_cases hallow : tenant.inAllowedDirs (tenant.filepathAbs cwd (GoStr.goTrim rest)) = true
        · rw [if_pos hallow] at hs
          cases hread : fs (GoStr.goTrim rest) with
          | none => rw [hread] at hs; exact absurd hs (by simp)
          | some content =>
            rw [hread] at hs
            refine ⟨Bool.not_eq_true _ ▸ hc, ?_, hallow, content, rfl, ?_⟩
            · by_contra hseg
              exact hc (tenant.goContains_dotdot_of_seg _ (Bool.not_eq_false _ ▸ hseg))
            · cases hs
              rfl
        · rw [if_neg hallow] at hs
          exact absurd hs (by simp)
    · intro hc hallow content hread
      rw [hfile]
      unfold tenant.validateSecretPath
      rw [if_neg (by rw [hc]; exact Bool.false_ne_true), if_pos hallow, hread]
  · intro name h
    rw [tenant.loadSecret_var_eq, if_neg h]
  · intro name h
    rw [tenant.loadSecret_var_eq, if_pos h]
  · intro value hne henv hfile hvar
    unfold tenant.loadSecret
    rw [if_neg hne, if_neg (by rw [henv]; exact Bool.false_ne_true),
      if_neg (by rw [hfile]; exact Bool.false_ne_true),
      if_neg (by rw [Bool.and_eq_true]; exact hvar)]

/-- Witness for claim C7 with a concrete environment, file system and working
directory: `ENV=` set and unset, an allow-listed `FILE=` read, a traversal
rejection, an out-of-allow-list rejection, `$\x7bVAR\x7d` expansion and a
literal value. -/
theorem c7_loadSecret_behaviour_witness :
    tenant.loadSecret (fun n => if n = "OPENAI_KEY" then "sk-123" else "")
      (fun p => if p = "/run/secrets/api_key" then some "filekey\n" else none)
      "/srv/app" "ENV=OPENAI_KEY" = .ok "sk-123" ∧
    (∃ e, tenant.loadSecret (fun n => if n = "OPENAI_KEY" then "sk-123" else "")
      (fun p => if p = "/run/secrets/api_key" then some "filekey\n" else none)
      "/srv/app" "ENV=MISSING" = .error e) ∧
    tenant.loadSecret (fun n => if n = "OPENAI_KEY" then "sk-123" else "")
      (fun p => if p = "/run/secrets/api_key" then some "filekey\n" else none)
      "/srv/app" "FILE=/run/secrets/api_key" = .ok "filekey" ∧
    (∃ e, tenant.loadSecret (fun n => if n = "OPENAI_KEY" then "sk-123" else "")
      (fun p => if p = "/run/secrets/api_key" then some "filekey\n" else none)
      "/srv/app" "FILE=/run/secrets/../../etc/passwd" = .error e) ∧
    (∃ e, tenant.loadSecret (fun n => if n = "OPENAI_KEY" then "sk-123" else "")
      (fun p => if p = "/run/secrets/api_key" then some "filekey\n" else none)
      "/srv/app" "FILE=/etc/passwd" = .error e) ∧
    tenant.loadSecret (fun n => if n = "OPENAI_KEY" then "sk-123" else "")
      (fun p => if p = "/run/secrets/api_key" then some "filekey\n" else none)
      "/srv/app" "$\x7bOPENAI_KEY\x7d" = .ok "sk-123" ∧
    tenant.loadSecret (fun n => if n = "OPENAI_KEY" then "sk-123" else "")
      (fun p => if p = "/run/secrets/api_key" then some "filekey\n" else none)
      "/srv/app" "inline-secret" = .ok "inline-secret" := by
  have h := c7_loadSecret_behaviour
    (fun n => if n = "OPENAI_KEY" then "sk-123" else "")
    (fun p => if p = "/run/secrets/api_key" then some "filekey\n" else none)
    "/srv/app"
  refine ⟨?_, ?_, ?_, ?_, ?_, ?_, ?_⟩
  · exact h.2.1 "OPENAI_KEY" (by decide)
  · exact ⟨_, h.2.2.1 "MISSING" (by decide)⟩
  · exact (h.2.2.2.1 "/run/secrets/api_key").2.2.2.2 (by decide) (by decide) "filekey\n"
      (by decide)
  · exact (h.2.2.2.1 "/run/secrets/../../etc/passwd").2.1 (by decide)
  · exact (h.2.2.2.1 "/etc/passwd").2.2.1 (by decide)
  · exact h.2.2.2.2.1 "OPENAI_KEY" (by decide)
  · exact h.2.2.2.2.2.2 "inline-secret" (by decide) (by decide) (by decide) (by decide)

namespace auth

/-- Key-value store state: each key is absent (`none`) or holds a counter
value together with its TTL in seconds, where `-1` means "no expiry set"
(the Redis `TTL` convention for an existing key). -/
def KV : Type := String → Option (Int × Int)

/-- Modelled from the spec: the rate-limit key prefix, giving keys of the form
`aibox:ratelimit:<client_id>:<window>`; the Go constant `rateLimitPrefix` is
referenced but not itself under src/. -/
def rateLimitPfx : String := "aibox:ratelimit:"

/-- The counter key `rateLimitPrefix + clientID + ":" + window`. -/
def rlKey (clientID window : String) : String :=
  rateLimitPfx ++ clientID ++ ":" ++ window

/-- `tokenRecordScript` from internal/auth/ratelimit.go (quoted in the
repository's audit-fix plan): atomically `INCRBY key tokens`, read `TTL key`,
`EXPIRE key window` exactly when the TTL is `-1`, and return the
post-increment count.  `INCRBY` on an absent key creates it with value
`tokens` and no expiry, so the subsequent `TTL` call sees `-1`. -/
def tokenRecordScript (kv : KV) (key : String) (tokens window : Int) : Int × KV :=
  let current : Int := match kv key with | none => tokens | some (v, _) => v + tokens
  let ttl0 : Int := match kv key with | none => -1 | some (_, t) => t
  let ttl1 : Int := if ttl0 = -1 then window else ttl0
  (current, fun k => if k = key then some (current, ttl1) else kv k)

/-- Modelled from the spec: `rateLimitScript`, used by `checkLimit`/`Allow`,
is not under src/; per the spec and the comment in ratelimit_test.go it is the
same increment-then-ensure-TTL script with increment 1. -/
def rateLimitScript (kv : KV) (key : String) (window : Int) : Int × KV :=
  tokenRecordScript kv key 1 window

/-- The rate limiter's configuration: `enabled` and the default per-minute
limits applied when a client's own limit is 0. -/
structure RateLimiter where
  enabled : Bool
  defaultRPM : Int
  defaultTPM : Int

/-- `ErrRateLimitExceeded` from internal/auth/ratelimit.go. -/
inductive RLError where
  | rateLimitExceeded
deriving DecidableEq

/-- `RecordTokens` from internal/auth/ratelimit.go (quoted in the repository's
audit-fix plan): ignore non-positive token counts, substitute the default TPM
limit when the client limit is 0, skip entirely when the effective limit is 0,
otherwise run the atomic script and report `ErrRateLimitExceeded` when the
post-increment count exceeds the limit — without rolling the increment back. -/
def RecordTokens (r : RateLimiter) (kv : KV) (clientID : String)
    (tokens limit : Int) : Except RLError Unit × KV :=
  if r.enabled = false then (.ok (), kv)
  else if tokens ≤ 0 then (.ok (), kv)
  else
    let limit1 := if limit = 0 then r.defaultTPM else limit
    if limit1 = 0 then (.ok (), kv)
    else
      let res := tokenRecordScript kv (rlKey clientID "tpm") tokens 60
      if res.1 > limit1 then (.error .rateLimitExceeded, res.2) else (.ok (), res.2)

/-- Modelled from the spec: `Allow`, whose body is not under src/, checks the
requests-per-minute counter through the same atomic script with increment 1,
applying the default RPM limit when the client limit is 0 (0 = unlimited) and
failing with `ErrRateLimitExceeded` on exhaustion. -/
def Allow (r : RateLimiter) (kv : KV) (clientID : String)
    (limit : Int) : Except RLError Unit × KV :=
  if r.enabled = false then (.ok (), kv)
  else
    let limit1 := if limit = 0 then r.defaultRPM else limit
    if limit1 = 0 then (.ok (), kv)
    else
      let res := rateLimitScript kv (rlKey clientID "rpm") 60
      if res.1 > limit1 then (.error .rateLimitExceeded, res.2) else (.ok (), res.2)

/-- A store is well formed when every present key has either no expiry (`-1`)
or a positive TTL — what Redis itself guarantees, since a key whose TTL
reaches 0 is deleted. -/
def wellFormedKV (kv : KV) : Prop :=
  ∀ k v t, kv k = some (v, t) → t = -1 ∨ 0 < t

/-- After the script, the touched key holds the post-increment count (which is
also the script's return value) with a positive TTL: the previous TTL when one
was set, `window` exactly when none was. -/
theorem tokenRecordScript_spec (kv : KV) (key : String) (tokens window : Int)
    (hwf : wellFormedKV kv) (hw : 0 < window) :
    ∃ v t, (tokenRecordScript kv key tokens window).2 key = some (v, t) ∧ 0 < t ∧
      (tokenRecordScript kv key tokens window).1 = v ∧
      v = (match kv key with | none => tokens | some (w, _) => w + tokens) ∧
      t = (match kv key with | none => window | some (_, u) => if u = -1 then window else u) := by
  unfold tokenRecordScript
  cases hk : kv key with
  | none =>
    refine ⟨tokens, window, ?_, hw, ?_, ?_, ?_⟩ <;> simp [hk]
  | some p =>
    obtain ⟨w, u⟩ := p
    rcases hwf key w u hk with hu | hu
    · refine ⟨w + tokens, window, ?_, hw, ?_, ?_, ?_⟩ <;> simp [hk, hu]
    · have hne : u ≠ -1 := by omega
      refine ⟨w + tokens, u, ?_, hu, ?_, ?_, ?_⟩ <;> simp [hk, hne]

/-- The script preserves well-formedness and leaves other keys untouched. -/
theorem tokenRecordScript_frame (kv : KV) (key : String) (tokens window : Int)
    (hwf : wellFormedKV kv) (hw : 0 < window) :
    wellFormedKV (tokenRecordScript kv key tokens window).2 ∧
    (∀ k, k ≠ key → (tokenRecordScript kv key tokens window).2 k = kv k) := by
  constructor
  · intro k v t hk
    by_cases hkey : k = key
    · subst hkey
      obtain ⟨v2, t2, hsome, ht, _, _, _⟩ := tokenRecordScript_spec kv k tokens window hwf hw
      rw [hsome] at hk
      cases hk
      right; exact ht
    · unfold tokenRecordScript at hk
      simp only [if_neg hkey] at hk
      exact hwf k v t hk
  · intro k hne
    unfold tokenRecordScript
    simp [hne]

end auth

/-- Claim C3: immediately after the atomic script runs, the affected counter
key holds the post-increment count (which the script returns) with a positive
TTL — the previous TTL when one was set, 60 s exactly when the TTL was `-1` —
so after `RecordTokens` or `Allow` touches `aibox:ratelimit:<client_id>:<window>`
that key never persists without an expiry. -/
theorem c3_ratelimit_ttl_always_set (kv : auth.KV) (key : String) (tokens window : Int)
    (hwf : auth.wellFormedKV kv) (hw : 0 < window) :
    (∃ v t, (auth.tokenRecordScript kv key tokens window).2 key = some (v, t) ∧ 0 < t ∧
      (auth.tokenRecordScript kv key tokens window).1 = v ∧
      v = (match kv key with | none => tokens | some (w, _) => w + tokens) ∧
      t = (match kv key with | none => window | some (_, u) => if u = -1 then window else u)) ∧
    auth.wellFormedKV (auth.tokenRecordScript kv key tokens window).2 ∧
    (∀ r clientID tk lim, r.enabled = true → 0 < tk →
      (if lim = 0 then r.defaultTPM else lim) ≠ 0 →
      ∃ v t, (auth.RecordTokens r kv clientID tk lim).2 (auth.rlKey clientID "tpm") =
        some (v, t) ∧ 0 < t) ∧
    (∀ r clientID lim, r.enabled = true →
      (if lim = 0 then r.defaultRPM else lim) ≠ 0 →
      ∃ v t, (auth.Allow r kv clientID lim).2 (auth.rlKey clientID "rpm") =
        some (v, t) ∧ 0 < t) := by
  refine ⟨auth.tokenRecordScript_spec kv key tokens window hwf hw,
    (auth.tokenRecordScript_frame kv key tokens window hwf hw).1, ?_, ?_⟩
  · intro r clientID tk lim hen htk hlim
    obtain ⟨v, t, hsome, ht, _, _, _⟩ :=
      auth.tokenRecordScript_spec kv (auth.rlKey clientID "tpm") tk 60 hwf (by decide)
    refine ⟨v, t, ?_, ht⟩
    simp only [auth.RecordTokens, hen, Bool.true_eq_false, if_false,
      if_neg (by omega : ¬tk ≤ 0), if_neg hlim]
    by_cases hgt : (auth.tokenRecordScript kv (auth.rlKey clientID "tpm") tk 60).1 >
        (if lim = 0 then r.defaultTPM else lim)
    · rw [if_pos hgt]; exact hsome
    · rw [if_neg hgt]; exact hsome
  · intro r clientID lim hen hlim
    obtain ⟨v, t, hsome, ht, _, _, _⟩ :=
      auth.tokenRecordScript_spec kv (auth.rlKey clientID "rpm") 1 60 hwf (by decide)
    refine ⟨v, t, ?_, ht⟩
    simp only [auth.Allow, hen, Bool.true_eq_false, if_false, if_neg hlim]
    unfold auth.rateLimitScript
    by_cases hgt : (auth.tokenRecordScript kv (auth.rlKey clientID "rpm") 1 60).1 >
        (if lim = 0 then r.defaultRPM else lim)
    · rw [if_pos hgt]; exact hsome
    · rw [if_neg hgt]; exact hsome

/-- Witness for claim C3: on an empty store, recording 5 tokens for client
`c1` leaves the `tpm` counter key with a positive TTL. -/
theorem c3_ratelimit_ttl_always_set_witness :
    ∃ v t, (auth.tokenRecordScript (fun _ => none) (auth.rlKey "c1" "tpm") 5 60).2
      (auth.rlKey "c1" "tpm") = some (v, t) ∧ 0 < t := by
  have h := c3_ratelimit_ttl_always_set (fun _ => none) (auth.rlKey "c1" "tpm") 5 60
    (by intro k v t hk; simp at hk) (by decide)
  obtain ⟨v, t, hsome, ht, _⟩ := h.1
  exact ⟨v, t, hsome, ht⟩

/-- Claim C4: `RecordTokens` ignores non-positive token counts; a client limit
of 0 falls back to the default TPM limit; when that default is also 0 nothing
is recorded and no error is returned; and when the post-increment count
exceeds the applicable limit it returns `ErrRateLimitExceeded` while the store
keeps the incremented count — the increment is not rolled back. -/
theorem c4_recordTokens_semantics (r : auth.RateLimiter) (kv : auth.KV)
    (clientID : String) (tokens limit : Int) :
    (tokens ≤ 0 → auth.RecordTokens r kv clientID tokens limit = (.ok (), kv)) ∧
    (limit = 0 → auth.RecordTokens r kv clientID tokens limit =
      auth.RecordTokens r kv clientID tokens r.defaultTPM) ∧
    (r.enabled = true → 0 < tokens → limit = 0 → r.defaultTPM = 0 →
      auth.RecordTokens r kv clientID tokens limit = (.ok (), kv)) ∧
    (r.enabled = true → 0 < tokens →
      (if limit = 0 then r.defaultTPM else limit) ≠ 0 →
      (auth.tokenRecordScript kv (auth.rlKey clientID "tpm") tokens 60).1 >
        (if limit = 0 then r.defaultTPM else limit) →
      auth.RecordTokens r kv clientID tokens limit =
        (.error .rateLimitExceeded,
          (auth.tokenRecordScript kv (auth.rlKey clientID "tpm") tokens 60).2)) ∧
    (auth.wellFormedKV kv → r.enabled = true → 0 < tokens →
      (if limit = 0 then r.defaultTPM else limit) ≠ 0 →
      ∃ v t, (auth.RecordTokens r kv clientID tokens limit).2 (auth.rlKey clientID "tpm") =
        some (v, t) ∧
        v = (match kv (auth.rlKey clientID "tpm") with
             | none => tokens
             | some (w, _) => w + tokens)) := by
  refine ⟨?_, ?_, ?_, ?_, ?_⟩
  · intro h
    by_cases hen : r.enabled = false
    · simp [auth.RecordTokens, hen]
    · simp [auth.RecordTokens, hen, h]
  · intro h
    subst h
    by_cases hd : r.defaultTPM = 0
    · simp [auth.RecordTokens, hd]
    · simp [auth.RecordTokens, hd]
  · intro hen htk h0 hd
    subst h0
    simp [auth.RecordTokens, hen, hd, (by omega : ¬tokens ≤ 0)]
  · intro hen htk hlim hgt
    simp only [auth.RecordTokens, hen, Bool.true_eq_false, if_false,
      if_neg (by omega : ¬tokens ≤ 0), if_neg hlim, if_pos hgt]
  · intro hwf hen htk hlim
    obtain ⟨v, t, hsome, ht, _, hv, _⟩ :=
      auth.tokenRecordScript_spec kv (auth.rlKey clientID "tpm") tokens 60 hwf (by decide)
    refine ⟨v, t, ?_, hv⟩
    simp only [auth.RecordTokens, hen, Bool.true_eq_false, if_false,
      if_neg (by omega : ¬tokens ≤ 0), if_neg hlim]
    by_cases hgt : (auth.tokenRecordScript kv (auth.rlKey clientID "tpm") tokens 60).1 >
        (if limit = 0 then r.defaultTPM else limit)
    · rw [if_pos hgt]; exact hsome
    · rw [if_neg hgt]; exact hsome

/-- Witness for claim C4: a negative token count is a no-op; with client and
default TPM limits both 0 nothing is recorded; recording 150 tokens against an
effective limit of 100 returns `ErrRateLimitExceeded` while the post-increment
state is kept. -/
theorem c4_recordTokens_semantics_witness :
    auth.RecordTokens ⟨true, 0, 100⟩ (fun _ => none) "c1" (-3) 50 =
      (.ok (), (fun _ => none)) ∧
    auth.RecordTokens ⟨true, 0, 0⟩ (fun _ => none) "c1" 5 0 = (.ok (), (fun _ => none)) ∧
    auth.RecordTokens ⟨true, 0, 100⟩ (fun _ => none) "c1" 150 0 =
      (.error .rateLimitExceeded,
        (auth.tokenRecordScript (fun _ => none) (auth.rlKey "c1" "tpm") 150 60).2) := by
  refine ⟨?_, ?_, ?_⟩
  · exact (c4_recordTokens_semantics ⟨true, 0, 100⟩ (fun _ => none) "c1" (-3) 50).1 (by decide)
  · exact (c4_recordTokens_semantics ⟨true, 0, 0⟩ (fun _ => none) "c1" 5 0).2.2.1
      rfl (by decide) rfl rfl
  · exact (c4_recordTokens_semantics ⟨true, 0, 100⟩ (fun _ => none) "c1" 150 0).2.2.2.1
      rfl (by decide) (by decide) (by decide)

namespace tenant

/-- `ProviderConfig` from internal/tenant (fields used by provider
selection; validated by env_test.go). -/
structure ProviderConfig where
  enabled : Bool
  apiKey : String := ""
  model : String := ""
deriving DecidableEq

/-- `FailoverConfig` from internal/tenant. -/
structure FailoverConfig where
  enabled : Bool := false
  order : List String := []
deriving DecidableEq

/-- `TenantConfig` from internal/tenant; the Go `map[string]ProviderConfig` is
modelled as its entry list (keys unique, hypotheses below require `Nodup`). -/
structure TenantConfig where
  providers : List (String × ProviderConfig) := []
  failover : FailoverConfig := {}
deriving DecidableEq

/-- Go map indexing `cfg.Providers[name]`. -/
def lookupProvider (cfg : TenantConfig) (name : String) : Option ProviderConfig :=
  (cfg.providers.find? (fun pr => pr.1 = name)).map (fun pr => pr.2)

/-- `GetProvider`: the provider's config when it is present and enabled
(behaviour fixed by TestTenantConfigGetProvider in
src/internal/tenant/env_test.go; the function body is not under src/). -/
def GetProvider (cfg : TenantConfig) (name : String) : Option ProviderConfig :=
  match lookupProvider cfg name with
  | some p => if p.enabled then some p else none
  | none => none

/-- Modelled from the spec: `DefaultProvider`, whose body is not under src/,
returns the first enabled name in `failover.order`, else any enabled provider
(deterministic iteration), else none; behaviour validated against the four
TestTenantConfigDefaultProvider tests of src/internal/tenant/env_test.go. -/
def DefaultProvider (cfg : TenantConfig) : Option (String × ProviderConfig) :=
  match cfg.failover.order.findSome? (fun n => (GetProvider cfg n).map (fun p => (n, p))) with
  | some r => some r
  | none => (cfg.providers.find? (fun pr => pr.2.enabled)).map (fun pr => (pr.1, pr.2))

/-- Modelled from the spec: provider selection for a request — the
`preferred_provider` when set and enabled for the tenant, else the tenant's
`DefaultProvider`. -/
def selectProvider (cfg : TenantConfig) (preferred : String) :
    Option (String × ProviderConfig) :=
  if preferred ≠ "" then
    match GetProvider cfg preferred with
    | some p => some (preferred, p)
    | none => DefaultProvider cfg
  else DefaultProvider cfg

/-- `GetProvider` succeeds exactly on present, enabled providers. -/
theorem GetProvider_eq_some (cfg : TenantConfig) (n : String) (p : ProviderConfig)
    (h : GetProvider cfg n = some p) :
    lookupProvider cfg n = some p ∧ p.enabled = true := by
  unfold GetProvider at h
  cases hl : lookupProvider cfg n with
  | none => rw [hl] at h; cases h
  | some q =>
    rw [hl] at h
    dsimp only at h
    by_cases he : q.enabled = true
    · rw [if_pos he] at h
      injection h with hqp
      subst hqp
      exact ⟨rfl, he⟩
    · rw [if_neg he] at h
      cases h

/-- In an association list with unique keys, lookup by the key of a member
returns that member. -/
theorem lookup_of_mem_nodup :
    ∀ (l : List (String × ProviderConfig)), (l.map Prod.fst).Nodup →
      ∀ pr ∈ l, l.find? (fun q => q.1 = pr.1) = some pr := by
  intro l
  induction l with
  | nil => intro _ pr hpr; cases hpr
  | cons a t ih =>
    intro hnd pr hpr
    rw [List.map_cons, List.nodup_cons] at hnd
    rcases List.mem_cons.1 hpr with h1 | h2
    · subst h1
      simp [List.find?_cons]
    · have hne : a.1 ≠ pr.1 := by
        intro heq
        exact hnd.1 (heq ▸ List.mem_map.2 ⟨pr, h2, rfl⟩)
      rw [List.find?_cons]
      have hdec : (decide (a.1 = pr.1)) = false := by simp [hne]
      rw [hdec]
      exact ih hnd.2 pr h2

/-- `findSome?` skips a leading block on which the function yields nothing. -/
theorem findSome?_append_all_none {α β : Type} (f : α → Option β) (l1 l2 : List α)
    (h : ∀ m ∈ l1, f m = none) : (l1 ++ l2).findSome? f = l2.findSome? f := by
  induction l1 with
  | nil => rfl
  | cons a t ih =>
    have ha := h a (List.mem_cons_self a t)
    rw [List.cons_append, List.findSome?_cons, ha]
    exact ih (fun m hm => h m (List.mem_cons_of_mem a hm))

/-- When every provider of the tenant is disabled, `GetProvider` yields
nothing for any name. -/
theorem GetProvider_none_of_all_disabled (cfg : TenantConfig)
    (hall : ∀ pr ∈ cfg.providers, pr.2.enabled = false) (m : String) :
    GetProvider cfg m = none := by
  unfold GetProvider
  cases hl : lookupProvider cfg m with
  | none => rfl
  | some p =>
    unfold lookupProvider at hl
    cases hf : cfg.providers.find? (fun pr => pr.1 = m) with
    | none => rw [hf] at hl; cases hl
    | some pr =>
      rw [hf] at hl
      rw [Option.map_some'] at hl
      injection hl with h2
      have hmem := List.mem_of_find?_eq_some hf
      have hdis := hall pr hmem
      show (if p.enabled = true then some p else none) = none
      rw [if_neg]
      rw [← h2, hdis]
      exact Bool.false_ne_true

/-- Whatever `DefaultProvider` returns is present in the tenant's provider
map and enabled. -/
theorem DefaultProvider_some_spec (cfg : TenantConfig)
    (hnd : (cfg.providers.map Prod.fst).Nodup) (n : String) (p : ProviderConfig)
    (h : DefaultProvider cfg = some (n, p)) :
    lookupProvider cfg n = some p ∧ p.enabled = true := by
  unfold DefaultProvider at h
  cases hfs : cfg.failover.order.findSome?
      (fun n => (GetProvider cfg n).map (fun p => (n, p))) with
  | some r =>
    rw [hfs] at h
    dsimp only at h
    injection h with hr
    subst hr
    obtain ⟨m, _, hm⟩ := List.exists_of_findSome?_eq_some hfs
    cases hg : GetProvider cfg m with
    | none => rw [hg] at hm; cases hm
    | some q =>
      rw [hg] at hm
      rw [Option.map_some'] at hm
      injection hm with hm2
      have hm3 : m = n := congrArg Prod.fst hm2
      have hm4 : q = p := congrArg Prod.snd hm2
      subst hm3
      subst hm4
      exact GetProvider_eq_some cfg m q hg
  | none =>
    rw [hfs] at h
    dsimp only at h
    cases hf : cfg.providers.find? (fun pr => pr.2.enabled) with
    | none => rw [hf] at h; cases h
    | some pr =>
      rw [hf] at h
      rw [Option.map_some'] at h
      injection h with h2
      have hn : pr.1 = n := congrArg Prod.fst h2
      have hp : pr.2 = p := congrArg Prod.snd h2
      have hmem := List.mem_of_find?_eq_some hf
      have hen : pr.2.enabled = true := by
        have := List.find?_some hf
        simpa using this
      constructor
      · unfold lookupProvider
        rw [← hn, lookup_of_mem_nodup cfg.providers hnd pr hmem]
        rw [Option.map_some', hp]
      · rw [← hp]; exact hen

/-- `DefaultProvider` returns the first name in `failover.order` whose
provider is enabled. -/
theorem DefaultProvider_first_in_order (cfg : TenantConfig) (l1 : List String)
    (n : String) (l2 : List String) (p : ProviderConfig)
    (horder : cfg.failover.order = l1 ++ n :: l2)
    (hskip : ∀ m ∈ l1, GetProvider cfg m = none)
    (hn : GetProvider cfg n = some p) :
    DefaultProvider cfg = some (n, p) := by
  unfold DefaultProvider
  rw [horder, findSome?_append_all_none _ l1 (n :: l2)
    (fun m hm => by rw [hskip m hm]; rfl), List.findSome?_cons, hn]
  rfl

/-- When no name in `failover.order` names an enabled provider but some
provider is enabled, `DefaultProvider` still returns a provider. -/
theorem DefaultProvider_fallback (cfg : TenantConfig)
    (hord : ∀ m ∈ cfg.failover.order, GetProvider cfg m = none)
    (hex : ∃ pr ∈ cfg.providers, pr.2.enabled = true) :
    ∃ n p, DefaultProvider cfg = some (n, p) := by
  have hfs : cfg.failover.order.findSome?
      (fun n => (GetProvider cfg n).map (fun p => (n, p))) = none := by
    rw [List.findSome?_eq_none_iff]
    intro m hm
    rw [hord m hm]
    rfl
  obtain ⟨pr, hmem, hen⟩ := hex
  have hsome : (cfg.providers.find? (fun pr => pr.2.enabled)).isSome := by
    rw [List.find?_isSome]
    exact ⟨pr, hmem, hen⟩
  obtain ⟨q, hq⟩ := Option.isSome_iff_exists.1 hsome
  refine ⟨q.1, q.2, ?_⟩
  unfold DefaultProvider
  rw [hfs, hq]
  rfl

/-- When every provider is disabled, `DefaultProvider` reports none. -/
theorem DefaultProvider_none_of_all_disabled (cfg : TenantConfig)
    (hall : ∀ pr ∈ cfg.providers, pr.2.enabled = false) :
    DefaultProvider cfg = none := by
  have hfs : cfg.failover.order.findSome?
      (fun n => (GetProvider cfg n).map (fun p => (n, p))) = none := by
    rw [List.findSome?_eq_none_iff]
    intro m hm
    rw [GetProvider_none_of_all_disabled cfg hall m]
    rfl
  have hf : cfg.providers.find? (fun pr => pr.2.enabled) = none := by
    rw [List.find?_eq_none]
    intro pr hpr
    simp [hall pr hpr]
  unfold DefaultProvider
  rw [hfs, hf]
  rfl

end tenant

/-- Claim C5: `DefaultProvider` returns the first name in `failover.order`
whose provider is enabled; when no order entry is enabled it returns some
enabled provider from the providers map; when no provider is enabled it
reports none — and the provider selected for a request is always present and
enabled in the tenant's config (it is the requested `preferred_provider`
whenever that one is enabled). -/
theorem c5_provider_selection (cfg : tenant.TenantConfig) (preferred : String)
    (hnd : (cfg.providers.map Prod.fst).Nodup) :
    (∀ n p, tenant.DefaultProvider cfg = some (n, p) →
      tenant.lookupProvider cfg n = some p ∧ p.enabled = true) ∧
    (∀ l1 n l2 p, cfg.failover.order = l1 ++ n :: l2 →
      (∀ m ∈ l1, tenant.GetProvider cfg m = none) →
      tenant.GetProvider cfg n = some p →
      tenant.DefaultProvider cfg = some (n, p)) ∧
    ((∀ m ∈ cfg.failover.order, tenant.GetProvider cfg m = none) →
      (∃ pr ∈ cfg.providers, pr.2.enabled = true) →
      ∃ n p, tenant.DefaultProvider cfg = some (n, p)) ∧
    ((∀ pr ∈ cfg.providers, pr.2.enabled = false) →
      tenant.DefaultProvider cfg = none) ∧
    (preferred ≠ "" → ∀ p, tenant.GetProvider cfg preferred = some p →
      tenant.selectProvider cfg preferred = some (preferred, p)) ∧
    (∀ n p, tenant.selectProvider cfg preferred = some (n, p) →
      tenant.lookupProvider cfg n = some p ∧ p.enabled = true) := by
  refine ⟨fun n p h => tenant.DefaultProvider_some_spec cfg hnd n p h,
    fun l1 n l2 p h1 h2 h3 => tenant.DefaultProvider_first_in_order cfg l1 n l2 p h1 h2 h3,
    fun h1 h2 => tenant.DefaultProvider_fallback cfg h1 h2,
    fun h => tenant.DefaultProvider_none_of_all_disabled cfg h, ?_, ?_⟩
  · intro hpre p hget
    unfold tenant.selectProvider
    rw [if_pos hpre, hget]
  · intro n p hsel
    unfold tenant.selectProvider at hsel
    by_cases hpre : preferred ≠ ""
    · rw [if_pos hpre] at hsel
      cases hget : tenant.GetProvider cfg preferred with
      | none =>
        rw [hget] at hsel
        exact tenant.DefaultProvider_some_spec cfg hnd n p hsel
      | some q =>
        rw [hget] at hsel
        replace hsel : some (preferred, q) = some (n, p) := hsel
        injection hsel with h2
        have h3 : preferred = n := congrArg Prod.fst h2
        have h4 : q = p := congrArg Prod.snd h2
        subst h3
        subst h4
        exact tenant.GetProvider_eq_some cfg preferred q hget
    · rw [if_neg hpre] at hsel
      exact tenant.DefaultProvider_some_spec cfg hnd n p hsel

/-- Witness for claim C5 on the configurations of the unit tests in
src/internal/tenant/env_test.go: the failover order's first enabled entry
wins, a disabled first entry is skipped, an enabled `preferred_provider` is
honoured, and a tenant with only disabled providers yields no provider. -/
theorem c5_provider_selection_witness :
    tenant.DefaultProvider
      ⟨[("openai", ⟨true, "key", "model"⟩), ("gemini", ⟨true, "key2", "model2"⟩)],
        ⟨true, ["gemini", "openai"]⟩⟩ = some ("gemini", ⟨true, "key2", "model2"⟩) ∧
    tenant.DefaultProvider
      ⟨[("openai", ⟨true, "key", "model"⟩), ("gemini", ⟨false, "key2", "model2"⟩)],
        ⟨true, ["gemini", "openai"]⟩⟩ = some ("openai", ⟨true, "key", "model"⟩) ∧
    tenant.selectProvider
      ⟨[("openai", ⟨true, "key", "model"⟩), ("gemini", ⟨true, "key2", "model2"⟩)],
        ⟨true, ["gemini", "openai"]⟩⟩ "openai" = some ("openai", ⟨true, "key", "model"⟩) ∧
    tenant.DefaultProvider
      ⟨[("openai", ⟨false, "", ""⟩), ("gemini", ⟨false, "", ""⟩)], ⟨false, []⟩⟩ = none := by
  refine ⟨?_, ?_, ?_, ?_⟩
  · exact (c5_provider_selection _ "" (by decide)).2.1 [] "gemini" ["openai"]
      ⟨true, "key2", "model2"⟩ rfl (by intro m hm; cases hm) (by decide)
  · exact (c5_provider_selection _ "" (by decide)).2.1 ["gemini"] "openai" []
      ⟨true, "key", "model"⟩ rfl (by decide) (by decide)
  · exact (c5_provider_selection _ "openai" (by decide)).2.2.2.2.1 (by decide)
      ⟨true, "key", "model"⟩ (by decide)
  · exact (c5_provider_selection _ "" (by decide)).2.2.2.1 (by decide)

namespace tenant

/-- `EnvConfig` from internal/tenant (the fields exercised by TestLoadEnv in
src/internal/tenant/env_test.go). -/
structure EnvConfig where
  configsDir : String := "configs"
  grpcPort : Int := 50051
  host : String := "0.0.0.0"
  redisAddr : String := "localhost:6379"
  redisDB : Int := 0
  tlsEnabled : Bool := false
  tlsCertFile : String := ""
  tlsKeyFile : String := ""
  logLevel : String := "info"
  logFormat : String := "json"
deriving DecidableEq

/-- Decimal value of a nonempty all-digit character list. -/
def digitsVal (l : List Char) : Option Nat :=
  if l = [] then none
  else if l.all Char.isDigit then
    some (l.foldl (fun n c => n * 10 + (c.toNat - 48)) 0)
  else none

/-- Go `strconv.Atoi` (success/failure and value; overflow not modelled):
an optional sign followed by at least one decimal digit. -/
def goAtoi (s : String) : Option Int :=
  match s.data with
  | [] => none
  | '+' :: rest => (digitsVal rest).map (fun n => (n : Int))
  | '-' :: rest => (digitsVal rest).map (fun n => -(n : Int))
  | l => (digitsVal l).map (fun n => (n : Int))

/-- Go `strconv.ParseBool`. -/
def goParseBool (s : String) : Option Bool :=
  if s = "1" ∨ s = "t" ∨ s = "T" ∨ s = "TRUE" ∨ s = "true" ∨ s = "True" then some true
  else if s = "0" ∨ s = "f" ∨ s = "F" ∨ s = "FALSE" ∨ s = "false" ∨ s = "False" then
    some false
  else none

/-- Modelled from the spec: `loadEnv` itself is not under src/; its behaviour
here follows its unit test `TestLoadEnv` (src/internal/tenant/env_test.go),
which fixes the defaults, requires an error for an invalid
`AIBOX_GRPC_PORT`, and requires an error when TLS is enabled without
certificate and key.  Where the spec's sentence "Invalid numeric/bool values
log a warning and fall back to defaults" conflicts with that test, the test —
code of this repository — is followed. -/
def loadEnv (env : String → String) : Except String EnvConfig :=
  match (if env "AIBOX_GRPC_PORT" = "" then some 50051 else goAtoi (env "AIBOX_GRPC_PORT")) with
  | none => .error "invalid AIBOX_GRPC_PORT"
  | some port =>
  match (if env "REDIS_DB" = "" then some 0 else goAtoi (env "REDIS_DB")) with
  | none => .error "invalid REDIS_DB"
  | some rdb =>
  match (if env "AIBOX_TLS_ENABLED" = "" then some false
         else goParseBool (env "AIBOX_TLS_ENABLED")) with
  | none => .error "invalid AIBOX_TLS_ENABLED"
  | some tls =>
  if tls = true ∧ (env "AIBOX_TLS_CERT_FILE" = "" ∨ env "AIBOX_TLS_KEY_FILE" = "") then
    .error "TLS enabled but certificate or key file missing"
  else
    .ok ⟨(if env "AIBOX_CONFIGS_DIR" = "" then "configs" else env "AIBOX_CONFIGS_DIR"),
         port,
         (if env "AIBOX_HOST" = "" then "0.0.0.0" else env "AIBOX_HOST"),
         (if env "REDIS_ADDR" = "" then "localhost:6379" else env "REDIS_ADDR"),
         rdb, tls, env "AIBOX_TLS_CERT_FILE", env "AIBOX_TLS_KEY_FILE",
         (if env "AIBOX_LOG_LEVEL" = "" then "info" else env "AIBOX_LOG_LEVEL"),
         (if env "AIBOX_LOG_FORMAT" = "" then "json" else env "AIBOX_LOG_FORMAT")⟩

/-- An environment built from a key-value list, `""` for unset variables, as
`t.Setenv` sets it up for TestLoadEnv. -/
def mkEnv (l : List (String × String)) : String → String := fun k =>
  match l.find? (fun pr => pr.1 = k) with
  | some pr => pr.2
  | none => ""

/-- The model reproduces all five TestLoadEnv cases of
src/internal/tenant/env_test.go. -/
theorem loadEnv_matches_test_cases :
    loadEnv (mkEnv []) =
      .ok ⟨"configs", 50051, "0.0.0.0", "localhost:6379", 0, false, "", "", "info", "json"⟩ ∧
    loadEnv (mkEnv [("AIBOX_CONFIGS_DIR", "/tmp"), ("AIBOX_GRPC_PORT", "8080"),
        ("AIBOX_HOST", "127.0.0.1"), ("REDIS_ADDR", "redis:6379"), ("REDIS_DB", "1"),
        ("AIBOX_LOG_LEVEL", "debug")]) =
      .ok ⟨"/tmp", 8080, "127.0.0.1", "redis:6379", 1, false, "", "", "debug", "json"⟩ ∧
    loadEnv (mkEnv [("AIBOX_GRPC_PORT", "invalid")]) = .error "invalid AIBOX_GRPC_PORT" ∧
    loadEnv (mkEnv [("AIBOX_TLS_ENABLED", "true")]) =
      .error "TLS enabled but certificate or key file missing" ∧
    loadEnv (mkEnv [("AIBOX_TLS_ENABLED", "true"), ("AIBOX_TLS_CERT_FILE", "cert.pem"),
        ("AIBOX_TLS_KEY_FILE", "key.pem")]) =
      .ok ⟨"configs", 50051, "0.0.0.0", "localhost:6379", 0, true, "cert.pem", "key.pem",
        "info", "json"⟩ :=
  ⟨rfl, rfl, rfl, rfl, rfl⟩

end tenant

/-- Claim C9 is false on the code: with `AIBOX_GRPC_PORT=invalid` (and nothing
else set), `loadEnv` does not fall back to the default config — it returns an
error, exactly as its own unit test TestLoadEnv requires. -/
theorem c9_invalid_env_counterexample :
    tenant.loadEnv (tenant.mkEnv [("AIBOX_GRPC_PORT", "invalid")]) =
      .error "invalid AIBOX_GRPC_PORT" ∧
    tenant.loadEnv (tenant.mkEnv [("AIBOX_GRPC_PORT", "invalid")]) ≠
      .ok {} := by
  refine ⟨rfl, ?_⟩
  intro h
  exact Except.noConfusion h

/-- Claim C9 (amended): when `AIBOX_GRPC_PORT` holds a value that does not
parse as an integer, `loadEnv` fails — it returns the
"invalid AIBOX_GRPC_PORT" error instead of a config, as TestLoadEnv
requires; the warn-and-fall-back behaviour the spec describes belongs to the
separate `applyEnvOverrides` config path, not to `loadEnv`. -/
theorem c9_invalid_env_errors (env : String → String)
    (h1 : ¬env "AIBOX_GRPC_PORT" = "")
    (h2 : tenant.goAtoi (env "AIBOX_GRPC_PORT") = none) :
    tenant.loadEnv env = .error "invalid AIBOX_GRPC_PORT" := by
  unfold tenant.loadEnv
  rw [if_neg h1, h2]

/-- Witness for the amended claim C9 at the test's own input
`AIBOX_GRPC_PORT=invalid`. -/
theorem c9_invalid_env_errors_witness :
    tenant.loadEnv (tenant.mkEnv [("AIBOX_GRPC_PORT", "invalid")]) =
      .error "invalid AIBOX_GRPC_PORT" :=
  c9_invalid_env_errors (tenant.mkEnv [("AIBOX_GRPC_PORT", "invalid")])
    (by decide) (by decide)

namespace rag

/-- Modelled from the spec: the RAG service derives the vector-store
collection name `<tenant_id>_<store_id>` from the tenant argument it is
handed; internal/rag/service.go itself is not under src/. -/
def collectionName (tenantID storeID : String) : String :=
  tenantID ++ "_" ++ storeID

/-- `rag.IngestParams` from internal/rag (as constructed by
FileService.UploadFile); the streamed payload is its byte list. -/
structure IngestParams where
  storeID : String
  tenantID : String
  file : List UInt8
  filename : String
  mimeType : String
deriving DecidableEq

/-- `rag.IngestResult` (the chunk count is all files.go consults). -/
structure IngestResult where
  chunkCount : Nat
deriving DecidableEq

end rag

namespace service

/-- `CreateFileStoreRequest` fields used by files.go. -/
structure CreateFileStoreRequest where
  clientId : String
  name : String
deriving DecidableEq

/-- `CreateFileStoreResponse` fields set by files.go. -/
structure CreateFileStoreResponse where
  storeId : String
  name : String
deriving DecidableEq

/-- The metadata message of the `UploadFile` client stream. -/
structure UploadFileMetadata where
  storeId : String
  filename : String
  mimeType : String
  size : Int
deriving DecidableEq

/-- One received message of the `UploadFile` client stream: the `oneof` holds
either metadata or a byte chunk. -/
inductive UploadMsg where
  | meta (m : UploadFileMetadata)
  | chunk (data : List UInt8)
deriving DecidableEq

/-- `UploadFileResponse` fields set by files.go. -/
structure UploadFileResponse where
  fileId : String
  filename : String
  storeId : String
  status : String
deriving DecidableEq

/-- `GetChunk()` of a stream message: the chunk bytes, nil (empty) for a
metadata message — files.go skips those with `continue`. -/
def chunkData : UploadMsg → List UInt8
  | .meta _ => []
  | .chunk d => d

/-- Modelled from the spec: the 100 MB upload cap (`maxUploadBytes` in the
repository's remediation plan); no such cap is present in
src/internal/service/files.go. -/
def maxUploadBytes : Nat := 100 * 1024 * 1024

/-- `CreateFileStore` from internal/service/files.go: requires `client_id`,
derives the store ID from `name` (else a timestamp-based ID), and calls
`ragService.CreateStore(ctx, req.ClientId, storeID)` — the tenant-namespace
argument is the request's `client_id`.  The result is paired with the
`(tenant, store)` arguments passed to the RAG service, `none` when no call
happens. -/
def CreateFileStore (createStore : String → String → Except String Unit)
    (nowNano : Nat) (req : CreateFileStoreRequest) :
    Except String CreateFileStoreResponse × Option (String × String) :=
  if req.clientId = "" then (.error "client_id is required", none)
  else
    let storeID := if req.name = "" then "store_" ++ toString nowNano else req.name
    match createStore req.clientId storeID with
    | .error e => (.error ("create store: " ++ e), some (req.clientId, storeID))
    | .ok _ => (.ok ⟨storeID, req.name⟩, some (req.clientId, storeID))

/-- `UploadFile` from internal/service/files.go over the received stream
`msgs`: the first message must be metadata with `store_id` and `filename`;
all subsequent chunks are concatenated into one buffer (no size check); the
tenant is hard-coded to `"default"`; ingestion failure is reported through a
`"failed"` status on a successful close, ingestion success through
`"ready"`.  The result is paired with the `IngestParams` handed to
`ragService.Ingest`, `none` when ingestion is never reached. -/
def UploadFile (ingest : rag.IngestParams → Except String rag.IngestResult)
    (msgs : List UploadMsg) :
    Except String UploadFileResponse × Option rag.IngestParams :=
  match msgs with
  | [] => (.error "receive metadata: EOF", none)
  | first :: rest =>
    match first with
    | .chunk _ => (.error "first message must contain metadata", none)
    | .meta m =>
      if m.storeId = "" then (.error "store_id is required", none)
      else if m.filename = "" then (.error "filename is required", none)
      else
        let params : rag.IngestParams :=
          ⟨m.storeId, "default", (rest.map chunkData).flatten, m.filename, m.mimeType⟩
        match ingest params with
        | .error _ => (.ok ⟨"", m.filename, m.storeId, "failed"⟩, some params)
        | .ok _ =>
          (.ok ⟨m.storeId ++ "_" ++ m.filename, m.filename, m.storeId, "ready"⟩, some params)

/-- `DeleteFileStore` from internal/service/files.go: tenant hard-coded to
`"default"`; a RAG failure is reported through `success=false` on a
successful RPC. -/
def DeleteFileStore (deleteStore : String → String → Except String Unit)
    (storeId : String) : Except String (Bool × String) × Option (String × String) :=
  if storeId = "" then (.error "store_id is required", none)
  else
    match deleteStore "default" storeId with
    | .error e => (.ok (false, e), some ("default", storeId))
    | .ok _ => (.ok (true, "store deleted successfully"), some ("default", storeId))

/-- `GetFileStore` from internal/service/files.go: tenant hard-coded to
`"default"`; returns the store ID with the point count. -/
def GetFileStore (storeInfo : String → String → Except String (Option Nat))
    (storeId : String) : Except String (String × Nat) × Option (String × String) :=
  if storeId = "" then (.error "store_id is required", none)
  else
    match storeInfo "default" storeId with
    | .error e => (.error ("get store info: " ++ e), some ("default", storeId))
    | .ok none => (.error "store not found", some ("default", storeId))
    | .ok (some cnt) => (.ok (storeId, cnt), some ("default", storeId))

end service

/-- For a stream whose metadata passes validation, `UploadFile` reduces to the
dispatch on the ingestion result, with the tenant fixed to `"default"`. -/
theorem UploadFile_run (ingest : rag.IngestParams → Except String rag.IngestResult)
    (m : service.UploadFileMetadata) (rest : List service.UploadMsg)
    (h1 : ¬m.storeId = "") (h2 : ¬m.filename = "") :
    service.UploadFile ingest (.meta m :: rest) =
      (match ingest ⟨m.storeId, "default", (rest.map service.chunkData).flatten,
          m.filename, m.mimeType⟩ with
       | .error _ => (.ok ⟨"", m.filename, m.storeId, "failed"⟩,
           some ⟨m.storeId, "default", (rest.map service.chunkData).flatten,
             m.filename, m.mimeType⟩)
       | .ok _ => (.ok ⟨m.storeId ++ "_" ++ m.filename, m.filename, m.storeId, "ready"⟩,
           some ⟨m.storeId, "default", (rest.map service.chunkData).flatten,
             m.filename, m.mimeType⟩)) := by
  unfold service.UploadFile
  dsimp only
  rw [if_neg h1, if_neg h2]

/-- Claim C1 is violated by the code: in files.go the RAG tenant namespace
never comes from the authenticated request context — `CreateFileStore`
passes the request's `client_id` and `UploadFile`, `DeleteFileStore` and
`GetFileStore` pass the constant `"default"` (none of them even receives an
authenticated tenant), so for an authenticated tenant `acme` the collection
acted on is `acme-client_docs` or `default_docs`, never `acme_docs`. -/
theorem c1_files_namespace_code :
    ∀ (createStore deleteStore : String → String → Except String Unit)
      (storeInfo : String → String → Except String (Option Nat))
      (ingest : rag.IngestParams → Except String rag.IngestResult) (nowNano : Nat),
    (service.CreateFileStore createStore nowNano ⟨"acme-client", "docs"⟩).2 =
      some ("acme-client", "docs") ∧
    ((service.UploadFile ingest
        [.meta ⟨"docs", "notes.txt", "text/plain", 0⟩, .chunk [104, 105]]).2.map
          (fun params => params.tenantID)) = some "default" ∧
    (service.DeleteFileStore deleteStore "docs").2 = some ("default", "docs") ∧
    (service.GetFileStore storeInfo "docs").2 = some ("default", "docs") ∧
    rag.collectionName "acme-client" "docs" ≠ rag.collectionName "acme" "docs" ∧
    rag.collectionName "default" "docs" ≠ rag.collectionName "acme" "docs" := by
  intro createStore deleteStore storeInfo ingest nowNano
  refine ⟨?_, ?_, ?_, ?_, by decide, by decide⟩
  · show (match createStore "acme-client" "docs" with
      | .error e => ((Except.error ("create store: " ++ e) :
          Except String service.CreateFileStoreResponse), some ("acme-client", "docs"))
      | .ok _ => (Except.ok (⟨"docs", "docs"⟩ : service.CreateFileStoreResponse),
          some ("acme-client", "docs"))).2 =
        some ("acme-client", "docs")
    cases createStore "acme-client" "docs" <;> rfl
  · rw [UploadFile_run ingest ⟨"docs", "notes.txt", "text/plain", 0⟩ [.chunk [104, 105]]
      (by decide) (by decide)]
    cases hing : ingest ⟨"docs", "default",
        (List.map service.chunkData [.chunk [104, 105]]).flatten,
        "notes.txt", "text/plain"⟩ <;> rfl
  · show (match deleteStore "default" "docs" with
      | .error e => (Except.ok (false, e), some ("default", "docs"))
      | .ok _ => (.ok (true, "store deleted successfully"), some ("default", "docs"))).2 =
        some ("default", "docs")
    cases deleteStore "default" "docs" <;> rfl
  · show (match storeInfo "default" "docs" with
      | .error e => (Except.error ("get store info: " ++ e), some ("default", "docs"))
      | .ok none => (.error "store not found", some ("default", "docs"))
      | .ok (some cnt) => (.ok ("docs", cnt), some ("default", "docs"))).2 =
        some ("default", "docs")
    cases hsi : storeInfo "default" "docs" with
    | error e => rfl
    | ok o => cases o <;> rfl

/-- Claim C2 is violated by the code: `UploadFile` enforces no size cap — an
upload whose single chunk holds 100 MB + 1 bytes is not rejected, the whole
oversized buffer is handed to RAG ingestion with tenant `"default"`, and when
ingestion succeeds the RPC reports status `"ready"`. -/
theorem c2_upload_no_size_cap (ingest : rag.IngestParams → Except String rag.IngestResult) :
    (∃ params, (service.UploadFile ingest
        [.meta ⟨"docs", "big.bin", "application/octet-stream", 0⟩,
         .chunk (List.replicate (service.maxUploadBytes + 1) (0 : UInt8))]).2 =
          some params ∧
      params.tenantID = "default" ∧
      params.file.length = service.maxUploadBytes + 1 ∧
      service.maxUploadBytes < params.file.length) ∧
    (∀ r, ingest ⟨"docs", "default",
        (([service.UploadMsg.chunk
            (List.replicate (service.maxUploadBytes + 1) (0 : UInt8))]).map
          service.chunkData).flatten,
        "big.bin", "application/octet-stream"⟩ = .ok r →
      (service.UploadFile ingest
        [.meta ⟨"docs", "big.bin", "application/octet-stream", 0⟩,
         .chunk (List.replicate (service.maxUploadBytes + 1) (0 : UInt8))]).1 =
        .ok ⟨"docs" ++ "_" ++ "big.bin", "big.bin", "docs", "ready"⟩) := by
  have hrun := UploadFile_run ingest ⟨"docs", "big.bin", "application/octet-stream", 0⟩
    [.chunk (List.replicate (service.maxUploadBytes + 1) (0 : UInt8))]
    (by decide) (by decide)
  have hlen : ((([service.UploadMsg.chunk
      (List.replicate (service.maxUploadBytes + 1) (0 : UInt8))]).map
        service.chunkData).flatten).length = service.maxUploadBytes + 1 := by
    simp [service.chunkData]
  constructor
  · refine ⟨⟨"docs", "default",
      (([service.UploadMsg.chunk
          (List.replicate (service.maxUploadBytes + 1) (0 : UInt8))]).map
        service.chunkData).flatten,
      "big.bin", "application/octet-stream"⟩, ?_, rfl, hlen, by rw [hlen]; omega⟩
    rw [hrun]
    cases hing : ingest ⟨"docs", "default",
        (([service.UploadMsg.chunk
            (List.replicate (service.maxUploadBytes + 1) (0 : UInt8))]).map
          service.chunkData).flatten,
        "big.bin", "application/octet-stream"⟩ <;> rfl
  · intro r hr
    rw [hrun, hr]

/-- Witness for the C2 code evaluation: with an ingestion stub that accepts
everything, the oversized upload reaches ingestion with more than
`maxUploadBytes` bytes under tenant `"default"`. -/
theorem c2_upload_no_size_cap_witness :
    ∃ params, (service.UploadFile (fun _ => .ok ⟨1⟩)
        [.meta ⟨"docs", "big.bin", "application/octet-stream", 0⟩,
         .chunk (List.replicate (service.maxUploadBytes + 1) (0 : UInt8))]).2 =
      some params ∧ params.tenantID = "default" ∧
      service.maxUploadBytes < params.file.length := by
  obtain ⟨params, hp, ht, _, hl⟩ := (c2_upload_no_size_cap (fun _ => .ok ⟨1⟩)).1
  exact ⟨params, hp, ht, hl⟩

/-- Claim C10: for an upload stream whose metadata passes validation but whose
ingestion fails, `UploadFile` returns no RPC error — it closes the stream
successfully with status `"failed"` and an empty `FileId`. -/
theorem c10_upload_failed_status
    (ingest : rag.IngestParams → Except String rag.IngestResult)
    (m : service.UploadFileMetadata) (rest : List service.UploadMsg) (e : String)
    (h1 : ¬m.storeId = "") (h2 : ¬m.filename = "")
    (hing : ingest ⟨m.storeId, "default", (rest.map service.chunkData).flatten,
      m.filename, m.mimeType⟩ = .error e) :
    service.UploadFile ingest (.meta m :: rest) =
      (.ok ⟨"", m.filename, m.storeId, "failed"⟩,
       some ⟨m.storeId, "default", (rest.map service.chunkData).flatten,
         m.filename, m.mimeType⟩) := by
  rw [UploadFile_run ingest m rest h1 h2, hing]

/-- Witness for claim C10: a concrete three-byte upload whose ingestion stub
fails is closed successfully with status `"failed"` and empty file ID. -/
theorem c10_upload_failed_status_witness :
    service.UploadFile (fun _ => .error "boom")
      [.meta ⟨"docs", "notes.txt", "text/plain", 0⟩, .chunk [1, 2, 3]] =
      (.ok ⟨"", "notes.txt", "docs", "failed"⟩,
       some ⟨"docs", "default",
         (([service.UploadMsg.chunk [1, 2, 3]]).map service.chunkData).flatten,
         "notes.txt", "text/plain"⟩) :=
  c10_upload_failed_status (fun _ => .error "boom") ⟨"docs", "notes.txt", "text/plain", 0⟩
    [.chunk [1, 2, 3]] "boom" (by decide) (by decide) rfl
